import Mathlib

/-!
Shallow embedding of the usb2snes client (`src/lib.rs`) and proofs about it.

Modelling conventions:
* machine bytes and u32 values are `Nat` (with `< 2^32` bounds where needed);
  the `size as i32` cast in `get_memory` is modelled by `toInt32`;
* the USB transport is an explicit stream: a `List ReadResult` gives the
  outcome of each successive `read_bulk`, and a `Except Error Nat` gives the
  outcome of the single `write_bulk`;
* the read loop of `get_memory` recurses on explicit fuel (the Rust loop can
  diverge, e.g. on endless zero-length reads); `none` means the fuel or the
  modelled stream ran out, never a value the Rust code produces;
* loops that the source drives by mutable state are state-passing recursions;
  the number of transport reads performed is returned alongside the result,
  since the spec quantifies over read counts.
-/

/-- libusb transfer types (only the constructors the code compares against
matter; `Control`/`Isochronous` stand for the remaining ones). -/
inductive TransferType where
  | Control
  | Isochronous
  | Bulk
  | Interrupt
deriving DecidableEq, Repr

/-- libusb endpoint direction. -/
inductive Direction where
  | In
  | Out
deriving DecidableEq, Repr

/-- libusb error values; the code only ever constructs `Other`, other
constructors model errors propagated from the transport. -/
inductive Error where
  | Other
  | Access
  | NoDevice
  | Busy
  | Timeout
  | Pipe
deriving DecidableEq, Repr

/-- `struct Endpoint` from the source. -/
structure Endpoint where
  config : Nat
  iface : Nat
  setting : Nat
  address : Nat
deriving DecidableEq, Repr

/-- `enum Opcode` from the source. -/
inductive Opcode where
  | Get
  | Put
  | Vget
  | Vput
  | Ls
  | Mkdir
  | Rm
  | Mv
  | Reset
  | Boot
  | PowerCycle
  | Info
  | MenuResut
  | Stream
  | Time
  | Respose
deriving DecidableEq, Repr

/-- The discriminant of `Opcode` (`op_code as u8`): `Get = 0`, counting up. -/
def Opcode.toNat : Opcode → Nat
  | .Get => 0
  | .Put => 1
  | .Vget => 2
  | .Vput => 3
  | .Ls => 4
  | .Mkdir => 5
  | .Rm => 6
  | .Mv => 7
  | .Reset => 8
  | .Boot => 9
  | .PowerCycle => 10
  | .Info => 11
  | .MenuResut => 12
  | .Stream => 13
  | .Time => 14
  | .Respose => 15

/-- `enum Space` from the source. -/
inductive Space where
  | File
  | Snes
  | Msu
  | Cmd
  | Config
deriving DecidableEq, Repr

/-- The discriminant of `Space` (`Space::Snes as u8 = 1`). -/
def Space.toNat : Space → Nat
  | .File => 0
  | .Snes => 1
  | .Msu => 2
  | .Cmd => 3
  | .Config => 4

/-- `enum Flags` from the source (explicit discriminants). -/
inductive Flags where
  | NoFlag
  | SkipReset
  | OnlyReset
  | Clrx
  | Setx
  | StreamBurst
  | Noresp
  | Data64b
deriving DecidableEq, Repr

/-- The discriminant of `Flags` (`Flags::Noresp as u8 = 64`). -/
def Flags.toNat : Flags → Nat
  | .NoFlag => 0
  | .SkipReset => 1
  | .OnlyReset => 2
  | .Clrx => 4
  | .Setx => 8
  | .StreamBurst => 16
  | .Noresp => 64
  | .Data64b => 128

/-- `fill_header`: writes the magic `b"USBA"`, the opcode, `Space::Snes` and
`Flags::Noresp` into the first seven bytes of the command buffer. -/
def fill_header (data : List Nat) (op_code : Opcode) : List Nat :=
  ((((((data.set 0 85).set 1 83).set 2 66).set 3 65).set 4 op_code.toNat).set 5
      Space.Snes.toNat).set 6 Flags.Noresp.toNat

/-- The 512-byte command frame built by `get_memory` before any transport
operation: a zeroed buffer, the header via `fill_header Opcode.Get`, the
offset big-endian at 256..259 and the size big-endian at 252..255. -/
def get_memory_command (offset size : Nat) : List Nat :=
  let command := List.replicate 512 0
  let command := fill_header command Opcode.Get
  let command := command.set 256 ((offset >>> 24) &&& 0xff)
  let command := command.set 257 ((offset >>> 16) &&& 0xff)
  let command := command.set 258 ((offset >>> 8) &&& 0xff)
  let command := command.set 259 ((offset >>> 0) &&& 0xff)
  let command := command.set 252 ((size >>> 24) &&& 0xff)
  let command := command.set 253 ((size >>> 16) &&& 0xff)
  let command := command.set 254 ((size >>> 8) &&& 0xff)
  let command := command.set 255 ((size >>> 0) &&& 0xff)
  command

/-- Big-endian decoding of four consecutive bytes of a buffer (out-of-range
indices read as zero). -/
def readBE32 (data : List Nat) (i : Nat) : Nat :=
  data.getD i 0 * 16777216 + data.getD (i + 1) 0 * 65536 +
    data.getD (i + 2) 0 * 256 + data.getD (i + 3) 0

/-- `u32 as i32` two's-complement reinterpretation (`size as i32`). -/
def toInt32 (n : Nat) : Int :=
  if n < 2 ^ 31 then (n : Int) else (n : Int) - 2 ^ 32

/-- One endpoint descriptor of the descriptor tree. -/
structure EndpointDesc where
  transfer_type : TransferType
  direction : Direction
  address : Nat
deriving DecidableEq, Repr

/-- One alternate setting (`interface_desc`) of an interface. -/
structure InterfaceDesc where
  interface_number : Nat
  setting_number : Nat
  endpoint_descriptors : List EndpointDesc
deriving DecidableEq, Repr

/-- One interface: its list of alternate-setting descriptors. -/
structure Interface where
  descriptors : List InterfaceDesc
deriving DecidableEq, Repr

/-- One configuration descriptor. -/
structure ConfigDesc where
  number : Nat
  interfaces : List Interface
deriving DecidableEq, Repr

/-- The step of the innermost loop of `get_end_points`: skip endpoints of the
wrong transfer type, record an `In` endpoint into the first slot, an `Out`
endpoint into the second, overwriting whatever was recorded before. -/
def scanEndpoint (transfer_type : TransferType) (cfg_number iface_number setting_number : Nat)
    (acc : Option Endpoint × Option Endpoint) (endpoint_desc : EndpointDesc) :
    Option Endpoint × Option Endpoint :=
  if endpoint_desc.transfer_type ≠ transfer_type then acc
  else if endpoint_desc.direction = Direction.In then
    (some ⟨cfg_number, iface_number, setting_number, endpoint_desc.address⟩, acc.2)
  else if endpoint_desc.direction = Direction.Out then
    (acc.1, some ⟨cfg_number, iface_number, setting_number, endpoint_desc.address⟩)
  else acc

/-- The loop of `get_end_points` over one alternate setting: fold
`scanEndpoint` over its endpoint descriptors. -/
def scanInterfaceDesc (transfer_type : TransferType) (cfg_number : Nat)
    (acc : Option Endpoint × Option Endpoint) (interface_desc : InterfaceDesc) :
    Option Endpoint × Option Endpoint :=
  interface_desc.endpoint_descriptors.foldl
    (scanEndpoint transfer_type cfg_number interface_desc.interface_number
      interface_desc.setting_number)
    acc

/-- The loop of `get_end_points` over one interface: fold over its alternate
settings. -/
def scanInterface (transfer_type : TransferType) (cfg_number : Nat)
    (acc : Option Endpoint × Option Endpoint) (itf : Interface) :
    Option Endpoint × Option Endpoint :=
  itf.descriptors.foldl (scanInterfaceDesc transfer_type cfg_number) acc

/-- The loop of `get_end_points` over one configuration; a `none` entry
models a configuration whose `config_descriptor` call fails and is skipped
(`Err(_) => continue`). -/
def scanConfig (transfer_type : TransferType) (acc : Option Endpoint × Option Endpoint)
    (oc : Option ConfigDesc) : Option Endpoint × Option Endpoint :=
  match oc with
  | none => acc
  | some config_desc =>
    config_desc.interfaces.foldl (scanInterface transfer_type config_desc.number) acc

/-- `get_end_points`: walk configurations, interfaces, alternate settings and
endpoint descriptors, recording the last matching endpoint of each direction;
succeed only if both directions were recorded. -/
def get_end_points (configs : List (Option ConfigDesc)) (transfer_type : TransferType) :
    Option (Endpoint × Endpoint) :=
  match configs.foldl (scanConfig transfer_type) (none, none) with
  | (some endpoint_in, some endpoint_out) => some (endpoint_in, endpoint_out)
  | _ => none

/-- The annotation `get_end_points` would build for one endpoint descriptor:
its transfer type, direction, and the `Endpoint` record. -/
def annotEndpoint (cfg_number iface_number setting_number : Nat)
    (endpoint_desc : EndpointDesc) : TransferType × Direction × Endpoint :=
  (endpoint_desc.transfer_type, endpoint_desc.direction,
    ⟨cfg_number, iface_number, setting_number, endpoint_desc.address⟩)

/-- Flat enumeration of one alternate setting's endpoints. -/
def enumInterfaceDesc (cfg_number : Nat) (interface_desc : InterfaceDesc) :
    List (TransferType × Direction × Endpoint) :=
  interface_desc.endpoint_descriptors.map
    (annotEndpoint cfg_number interface_desc.interface_number interface_desc.setting_number)

/-- Flat enumeration of one interface's endpoints. -/
def enumInterface (cfg_number : Nat) (itf : Interface) :
    List (TransferType × Direction × Endpoint) :=
  itf.descriptors.flatMap (enumInterfaceDesc cfg_number)

/-- Flat enumeration of one configuration's endpoints; a skipped (unreadable)
configuration contributes nothing. -/
def enumConfigEntry (oc : Option ConfigDesc) : List (TransferType × Direction × Endpoint) :=
  match oc with
  | none => []
  | some config_desc => config_desc.interfaces.flatMap (enumInterface config_desc.number)

/-- The flat enumeration of the descriptor tree in the visit order of
`get_end_points`: each endpoint descriptor annotated with its transfer type,
direction and the `Endpoint` record that `get_end_points` would build for
it. -/
def enumEndpoints (configs : List (Option ConfigDesc)) :
    List (TransferType × Direction × Endpoint) :=
  configs.flatMap enumConfigEntry

/-- Whether an annotated endpoint matches a requested transfer type and
direction. -/
def epMatch (transfer_type : TransferType) (dir : Direction)
    (x : TransferType × Direction × Endpoint) : Bool :=
  x.1 = transfer_type ∧ x.2.1 = dir

/-- The flat-form single step of `get_end_points`, used to relate the nested
loops to a fold over `enumEndpoints`. -/
def updatePair (transfer_type : TransferType) (acc : Option Endpoint × Option Endpoint)
    (x : TransferType × Direction × Endpoint) : Option Endpoint × Option Endpoint :=
  if x.1 ≠ transfer_type then acc
  else if x.2.1 = Direction.In then (some x.2.2, acc.2)
  else if x.2.1 = Direction.Out then (acc.1, some x.2.2)
  else acc

/-- Device descriptor: the two identifiers `open_device` inspects. -/
structure DeviceDesc where
  vendor_id : Nat
  product_id : Nat
deriving DecidableEq, Repr

/-- The kernel-driver operations of an open device handle, keyed by interface
number, as used by `configure_endpoint`. -/
structure KernelOps where
  kernel_driver_active : Nat → Except Error Bool
  detach_kernel_driver : Nat → Except Error Unit
  attach_kernel_driver : Nat → Except Error Unit

/-- One attached device as seen by `open_device`: its descriptor read (which
may fail and is then skipped), the outcome of `open`, and its configuration
tree for `get_end_points`. -/
structure UsbDevice where
  device_descriptor : Except Error DeviceDesc
  open_result : Except Error KernelOps
  configs : List (Option ConfigDesc)

/-- Whether `open_device` considers a device a match: its descriptor is
readable and both identifiers agree. -/
def deviceMatches (device : UsbDevice) (vid pid : Nat) : Bool :=
  match device.device_descriptor with
  | .ok desc => desc.vendor_id = vid ∧ desc.product_id = pid
  | .error _ => false

/-- `open_device`: scan the device list in order, skip devices whose
descriptor cannot be read, open and return the first match (propagating the
open failure), and fail with `Error::Other` when nothing matches. -/
def open_device (devices : List UsbDevice) (vid pid : Nat) :
    Except Error (UsbDevice × DeviceDesc × KernelOps) :=
  match devices with
  | [] => .error Error.Other
  | device :: rest =>
    match device.device_descriptor with
    | .error _ => open_device rest vid pid
    | .ok desc =>
      if desc.vendor_id = vid ∧ desc.product_id = pid then
        match device.open_result with
        | .ok handle => .ok (device, desc, handle)
        | .error e => .error e
      else open_device rest vid pid

/-- `configure_endpoint`: if a kernel driver is active on the endpoint's
interface, detach it (propagating failure) and reattach it afterwards
(propagating failure); otherwise do nothing. -/
def configure_endpoint (handle : KernelOps) (endpoint : Endpoint) : Except Error Unit :=
  match handle.kernel_driver_active endpoint.iface with
  | .ok true =>
    match handle.detach_kernel_driver endpoint.iface with
    | .error e => .error e
    | .ok _ =>
      match handle.attach_kernel_driver endpoint.iface with
      | .error e => .error e
      | .ok _ => .ok ()
  | _ => .ok ()

/-- The `Usb2snes` facade state built by `new_from_vid_pid`. -/
structure Usb2snes where
  device : UsbDevice
  desc : DeviceDesc
  handle : KernelOps
  endpoint_in : Endpoint
  endpoint_out : Endpoint

/-- `new_from_vid_pid`: open the device, try an interrupt endpoint pair and
use it directly when found; otherwise try a bulk pair, configuring (only) its
output endpoint and mapping a configuration failure to `Error::Other`; fail
with `Error::Other` when neither pair resolves. -/
def new_from_vid_pid (devices : List UsbDevice) (vid pid : Nat) : Except Error Usb2snes :=
  match open_device devices vid pid with
  | .error e => .error e
  | .ok (device, desc, handle) =>
    match get_end_points device.configs TransferType.Interrupt with
    | some ends => .ok ⟨device, desc, handle, ends.1, ends.2⟩
    | none =>
      match get_end_points device.configs TransferType.Bulk with
      | some ends =>
        match configure_endpoint handle ends.2 with
        | .error _ => .error Error.Other
        | .ok _ => .ok ⟨device, desc, handle, ends.1, ends.2⟩
      | none => .error Error.Other

/-- Outcome of one `read_bulk` call of the modelled transport: `ok data`
delivers `data` (of the reported length) into the front of the buffer, `err`
is a failed read. -/
inductive ReadResult where
  | ok (data : List Nat)
  | err (e : Error)
deriving DecidableEq, Repr

/-- The length a drain read observes: a failed read is treated as length 0
(`Err(err) => 0` in `clear_read`). -/
def drainLen : ReadResult → Nat
  | .ok data => data.length
  | .err _ => 0

/-- `clear_read`: repeatedly read and discard until a read reports zero bytes
(failed reads report zero). Returns the number of reads performed and the
unconsumed remainder of the stream; `none` when the modelled stream is
exhausted before a terminating read. -/
def clear_read_go : List ReadResult → Option (Nat × List ReadResult)
  | [] => none
  | r :: rs =>
    if drainLen r = 0 then some (1, rs)
    else
      match clear_read_go rs with
      | none => none
      | some (n, rest) => some (n + 1, rest)

/-- Mutable state of the read loop of `get_memory`: the 512-byte scratch
buffer `output`, the `i32` remaining-byte counter, the fail counter, the
accumulated `result` vector, and the number of loop reads performed so far
(returned because the spec counts reads). -/
structure LoopState where
  output : List Nat
  size_count : Int
  fail_counts : Nat
  result : List Nat
  reads_done : Nat

/-- The read loop of `get_memory`, fuelled. Per iteration, faithful to the
source: a successful read of `data` overwrites the front of `output` (a read
cannot deliver more than the buffer holds, hence the `take`), subtracts the
reported length from `size_count` and appends the whole buffer to `result`;
a failed read bumps the fail counter and returns `Err(Error::Other)` at once;
then `fail_counts == 1000` would also abort, and the loop exits successfully
once `size_count <= 0`. -/
def read_loop : Nat → List ReadResult → LoopState → Option (Except Error (List Nat) × Nat)
  | 0, _, _ => none
  | _ + 1, [], _ => none
  | fuel + 1, r :: rs, st =>
    match r with
    | .err _ => some (.error Error.Other, st.reads_done + 1)
    | .ok data =>
      let data := data.take st.output.length
      let output := data ++ st.output.drop data.length
      let size_count := st.size_count - data.length
      let result := st.result ++ output
      let st2 : LoopState :=
        ⟨output, size_count, st.fail_counts, result, st.reads_done + 1⟩
      if st2.fail_counts = 1000 then some (.error Error.Other, st2.reads_done)
      else if st2.size_count ≤ 0 then some (.ok st2.result, st2.reads_done)
      else read_loop fuel rs st2

/-- `get_memory` over a modelled transport: build the command frame, drain
stale reads, write the frame (a failure maps to `Error::Other`), then run the
read loop on a zeroed buffer with `size_count = size as i32`. The `Nat`
paired with the outcome counts the reads performed by the read loop. -/
def get_memory (reads : List ReadResult) (write_result : Except Error Nat)
    (offset size : Nat) (fuel : Nat) : Option (Except Error (List Nat) × Nat) :=
  let _command := get_memory_command offset size
  match clear_read_go reads with
  | none => none
  | some (_, rest) =>
    match write_result with
    | .error _ => some (.error Error.Other, 0)
    | .ok _ => read_loop fuel rest ⟨List.replicate 512 0, toInt32 size, 0, [], 0⟩

/-- The buffer contents appended to `result` by a run of successful reads:
each chunk overwrites the front of the previous buffer and the whole buffer
is appended. -/
def blocks (buf : List Nat) : List (List Nat) → List Nat
  | [] => []
  | c :: cs =>
    let buf2 := c.take buf.length ++ buf.drop (c.take buf.length).length
    buf2 ++ blocks buf2 cs

/-! ## Frame codec -/

set_option maxRecDepth 8192
set_option maxHeartbeats 1600000

theorem length_get_memory_command (offset size : Nat) :
    (get_memory_command offset size).length = 512 := by
  simp [get_memory_command, fill_header]

theorem get_memory_command_written_bytes (offset size : Nat) :
    (get_memory_command offset size)[0]? = some 85 ∧
    (get_memory_command offset size)[1]? = some 83 ∧
    (get_memory_command offset size)[2]? = some 66 ∧
    (get_memory_command offset size)[3]? = some 65 ∧
    (get_memory_command offset size)[4]? = some 0 ∧
    (get_memory_command offset size)[5]? = some 1 ∧
    (get_memory_command offset size)[6]? = some 64 ∧
    (get_memory_command offset size)[252]? = some ((size >>> 24) &&& 255) ∧
    (get_memory_command offset size)[253]? = some ((size >>> 16) &&& 255) ∧
    (get_memory_command offset size)[254]? = some ((size >>> 8) &&& 255) ∧
    (get_memory_command offset size)[255]? = some ((size >>> 0) &&& 255) ∧
    (get_memory_command offset size)[256]? = some ((offset >>> 24) &&& 255) ∧
    (get_memory_command offset size)[257]? = some ((offset >>> 16) &&& 255) ∧
    (get_memory_command offset size)[258]? = some ((offset >>> 8) &&& 255) ∧
    (get_memory_command offset size)[259]? = some ((offset >>> 0) &&& 255) := by
  refine ⟨?_, ?_, ?_, ?_, ?_, ?_, ?_, ?_, ?_, ?_, ?_, ?_, ?_, ?_, ?_⟩ <;>
    simp [get_memory_command, fill_header, List.getElem?_set, Opcode.toNat, Space.toNat,
      Flags.toNat, List.getElem?_replicate]

theorem get_memory_command_unwritten_byte (offset size : Nat) (i : Nat) (h1 : i < 512)
    (h2 : 7 ≤ i) (h3 : i < 252 ∨ 260 ≤ i) :
    (get_memory_command offset size)[i]? = some 0 := by
  simp only [get_memory_command, fill_header, List.getElem?_set, List.length_set,
    List.length_replicate]
  repeat rw [if_neg (by omega)]
  rw [List.getElem?_replicate, if_pos (by omega)]

theorem and_255_eq_mod (x : Nat) : x &&& 255 = x % 256 := by
  have h := Nat.and_pow_two_sub_one_eq_mod x 8
  norm_num at h
  exact h

theorem be_recompose (x : Nat) (hx : x < 2 ^ 32) :
    ((x >>> 24) &&& 255) * 16777216 + ((x >>> 16) &&& 255) * 65536 +
      ((x >>> 8) &&& 255) * 256 + ((x >>> 0) &&& 255) = x := by
  simp only [and_255_eq_mod, Nat.shiftRight_eq_div_pow]
  norm_num
  omega

theorem readBE32_cmd_252 (offset size : Nat) (hs : size < 2 ^ 32) :
    readBE32 (get_memory_command offset size) 252 = size := by
  obtain ⟨-, -, -, -, -, -, -, h252, h253, h254, h255, -, -, -, -⟩ :=
    get_memory_command_written_bytes offset size
  unfold readBE32
  rw [show (252 : Nat) + 1 = 253 from rfl, show (252 : Nat) + 2 = 254 from rfl,
    show (252 : Nat) + 3 = 255 from rfl]
  simp only [List.getD_eq_getElem?_getD, h252, h253, h254, h255, Option.getD_some]
  exact be_recompose size hs

theorem readBE32_cmd_256 (offset size : Nat) (ho : offset < 2 ^ 32) :
    readBE32 (get_memory_command offset size) 256 = offset := by
  obtain ⟨-, -, -, -, -, -, -, -, -, -, -, h256, h257, h258, h259⟩ :=
    get_memory_command_written_bytes offset size
  unfold readBE32
  rw [show (256 : Nat) + 1 = 257 from rfl, show (256 : Nat) + 2 = 258 from rfl,
    show (256 : Nat) + 3 = 259 from rfl]
  simp only [List.getD_eq_getElem?_getD, h256, h257, h258, h259, Option.getD_some]
  exact be_recompose offset ho

/-- C3: for every 32-bit (address, size) pair, the frame built by
`get_memory` is exactly 512 bytes; bytes 0..3 are the ASCII magic "USBA"
(85, 83, 66, 65); byte 4 is the `Get` opcode (0); byte 5 is the `Snes`
address-space selector (1); byte 6 is the `Noresp` flag (64); bytes 252..255
hold the size big-endian; bytes 256..259 hold the address big-endian; and
every other byte is zero. -/
theorem get_memory_command_layout (offset size : Nat) (ho : offset < 2 ^ 32)
    (hs : size < 2 ^ 32) :
    (get_memory_command offset size).length = 512 ∧
    (get_memory_command offset size).getD 0 0 = 85 ∧
    (get_memory_command offset size).getD 1 0 = 83 ∧
    (get_memory_command offset size).getD 2 0 = 66 ∧
    (get_memory_command offset size).getD 3 0 = 65 ∧
    (get_memory_command offset size).getD 4 0 = 0 ∧
    (get_memory_command offset size).getD 5 0 = 1 ∧
    (get_memory_command offset size).getD 6 0 = 64 ∧
    readBE32 (get_memory_command offset size) 252 = size ∧
    readBE32 (get_memory_command offset size) 256 = offset ∧
    ∀ i, i < 512 → 7 ≤ i → (i < 252 ∨ 260 ≤ i) →
      (get_memory_command offset size).getD i 0 = 0 := by
  obtain ⟨h0, h1, h2, h3, h4, h5, h6, -, -, -, -, -, -, -, -⟩ :=
    get_memory_command_written_bytes offset size
  refine ⟨length_get_memory_command offset size, ?_, ?_, ?_, ?_, ?_, ?_, ?_,
    readBE32_cmd_252 offset size hs, readBE32_cmd_256 offset size ho, ?_⟩
  · simp [h0]
  · simp [h1]
  · simp [h2]
  · simp [h3]
  · simp [h4]
  · simp [h5]
  · simp [h6]
  · intro i hi1 hi2 hi3
    simp [get_memory_command_unwritten_byte offset size i hi1 hi2 hi3]

/-- C3 witness: the layout theorem instantiated at address 0xFFFFFFFF and
size 0, with the all-other-bytes-zero part instantiated at index 100. -/
theorem get_memory_command_layout_witness :
    (get_memory_command 4294967295 0).length = 512 ∧
    (get_memory_command 4294967295 0).getD 0 0 = 85 ∧
    (get_memory_command 4294967295 0).getD 1 0 = 83 ∧
    (get_memory_command 4294967295 0).getD 2 0 = 66 ∧
    (get_memory_command 4294967295 0).getD 3 0 = 65 ∧
    (get_memory_command 4294967295 0).getD 4 0 = 0 ∧
    (get_memory_command 4294967295 0).getD 5 0 = 1 ∧
    (get_memory_command 4294967295 0).getD 6 0 = 64 ∧
    readBE32 (get_memory_command 4294967295 0) 252 = 0 ∧
    readBE32 (get_memory_command 4294967295 0) 256 = 4294967295 ∧
    (get_memory_command 4294967295 0).getD 100 0 = 0 := by
  obtain ⟨h1, h2, h3, h4, h5, h6, h7, h8, h9, h10, h11⟩ :=
    get_memory_command_layout 4294967295 0 (by decide) (by decide)
  exact ⟨h1, h2, h3, h4, h5, h6, h7, h8, h9, h10, h11 100 (by decide) (by decide) (by decide)⟩

/-- C4: decoding bytes 252..255 and 256..259 of the encoded frame as
big-endian u32 values reproduces exactly the size and address that were
encoded, over the full 32-bit range. -/
theorem get_memory_command_roundtrip (offset size : Nat) (ho : offset < 2 ^ 32)
    (hs : size < 2 ^ 32) :
    readBE32 (get_memory_command offset size) 252 = size ∧
    readBE32 (get_memory_command offset size) 256 = offset :=
  ⟨readBE32_cmd_252 offset size hs, readBE32_cmd_256 offset size ho⟩

/-- C4 witness: the round-trip theorem instantiated at the extreme values 0
and 0xFFFFFFFF. -/
theorem get_memory_command_roundtrip_witness :
    (readBE32 (get_memory_command 0 4294967295) 252 = 4294967295 ∧
      readBE32 (get_memory_command 0 4294967295) 256 = 0) ∧
    (readBE32 (get_memory_command 4294967295 0) 252 = 0 ∧
      readBE32 (get_memory_command 4294967295 0) 256 = 4294967295) :=
  ⟨get_memory_command_roundtrip 0 4294967295 (by decide) (by decide),
    get_memory_command_roundtrip 4294967295 0 (by decide) (by decide)⟩

/-! ## Endpoint resolver -/

theorem foldl_flat {α β γ : Type} (l : List α) (f : α → List β) (g : γ → β → γ) (a : γ) :
    (l.flatMap f).foldl g a = l.foldl (fun acc x => (f x).foldl g acc) a := by
  induction l generalizing a with
  | nil => rfl
  | cons x xs ih => simp [List.flatMap_cons, List.foldl_append, ih]

theorem enum_idesc_foldl (tt : TransferType) (c : Nat) (idesc : InterfaceDesc)
    (acc : Option Endpoint × Option Endpoint) :
    (enumInterfaceDesc c idesc).foldl (updatePair tt) acc = scanInterfaceDesc tt c acc idesc := by
  unfold enumInterfaceDesc scanInterfaceDesc
  rw [List.foldl_map]
  rfl

theorem enum_interface_foldl (tt : TransferType) (c : Nat) (itf : Interface)
    (acc : Option Endpoint × Option Endpoint) :
    (enumInterface c itf).foldl (updatePair tt) acc = scanInterface tt c acc itf := by
  unfold enumInterface scanInterface
  rw [foldl_flat]
  apply List.foldl_ext
  intro a idesc _
  exact enum_idesc_foldl tt c idesc a

theorem enum_config_foldl (tt : TransferType) (oc : Option ConfigDesc)
    (acc : Option Endpoint × Option Endpoint) :
    (enumConfigEntry oc).foldl (updatePair tt) acc = scanConfig tt acc oc := by
  cases oc with
  | none => rfl
  | some c =>
    unfold enumConfigEntry scanConfig
    rw [foldl_flat]
    apply List.foldl_ext
    intro a itf _
    exact enum_interface_foldl tt c.number itf a

theorem get_end_points_eq_foldl_enum (configs : List (Option ConfigDesc)) (tt : TransferType) :
    get_end_points configs tt =
      match (enumEndpoints configs).foldl (updatePair tt) (none, none) with
      | (some endpoint_in, some endpoint_out) => some (endpoint_in, endpoint_out)
      | _ => none := by
  unfold get_end_points enumEndpoints
  rw [foldl_flat]
  have h : configs.foldl (fun acc x => (enumConfigEntry x).foldl (updatePair tt) acc) (none, none)
      = configs.foldl (scanConfig tt) (none, none) := by
    apply List.foldl_ext
    intro a oc _
    exact enum_config_foldl tt oc a
  rw [h]

theorem foldl_last_match {α β : Type} (p : α → Bool) (f : α → β) :
    ∀ (l : List α) (a : Option β),
      l.foldl (fun acc x => if p x then some (f x) else acc) a =
        (match (l.filter p).getLast? with
          | some x => some (f x)
          | none => a) := by
  intro l
  induction l with
  | nil => intro a; rfl
  | cons x xs ih =>
    intro a
    rw [List.foldl_cons, ih, List.filter_cons]
    by_cases hp : p x
    · simp only [hp, if_true, List.getLast?_cons]
      cases h : (xs.filter p).getLast? <;> simp [h, hp]
    · simp [hp]

theorem updatePair_split (tt : TransferType) (acc : Option Endpoint × Option Endpoint)
    (x : TransferType × Direction × Endpoint) :
    updatePair tt acc x =
      (if epMatch tt Direction.In x then some x.2.2 else acc.1,
        if epMatch tt Direction.Out x then some x.2.2 else acc.2) := by
  rcases x with ⟨t, d, e⟩
  by_cases h : t = tt
  · subst h
    cases d <;> simp [updatePair, epMatch]
  · simp [updatePair, epMatch, h]

theorem foldl_updatePair_components (tt : TransferType)
    (l : List (TransferType × Direction × Endpoint)) (acc : Option Endpoint × Option Endpoint) :
    l.foldl (updatePair tt) acc =
      (l.foldl (fun a x => if epMatch tt Direction.In x then some x.2.2 else a) acc.1,
        l.foldl (fun a x => if epMatch tt Direction.Out x then some x.2.2 else a) acc.2) := by
  induction l generalizing acc with
  | nil => rfl
  | cons x xs ih =>
    rw [List.foldl_cons, List.foldl_cons, List.foldl_cons, ih, updatePair_split]

/-- C5: `get_end_points` returns `some` pair exactly when the flat
enumeration of the descriptor tree (configurations, then interfaces, then
alternate settings, then endpoints) contains at least one input and at least
one output endpoint of the requested transfer kind, and per direction
independently the endpoint returned is the last matching one in enumeration
order (later matches overwrite earlier ones). -/
theorem get_end_points_last_wins (configs : List (Option ConfigDesc)) (tt : TransferType) :
    get_end_points configs tt =
      match ((enumEndpoints configs).filter (epMatch tt Direction.In)).getLast?,
          ((enumEndpoints configs).filter (epMatch tt Direction.Out)).getLast? with
      | some i, some o => some (i.2.2, o.2.2)
      | _, _ => none := by
  rw [get_end_points_eq_foldl_enum, foldl_updatePair_components,
    foldl_last_match (epMatch tt Direction.In) (fun x => x.2.2) (enumEndpoints configs) none,
    foldl_last_match (epMatch tt Direction.Out) (fun x => x.2.2) (enumEndpoints configs) none]
  cases ((enumEndpoints configs).filter (epMatch tt Direction.In)).getLast? <;>
    cases ((enumEndpoints configs).filter (epMatch tt Direction.Out)).getLast? <;> rfl

/-! ## Device locator -/

theorem open_device_first_match (devices : List UsbDevice) (vid pid : Nat) :
    open_device devices vid pid =
      match devices.find? (fun d => deviceMatches d vid pid) with
      | some d =>
        (match d.device_descriptor, d.open_result with
          | .ok desc, .ok handle => .ok (d, desc, handle)
          | .ok _, .error e => .error e
          | .error _, _ => .error Error.Other)
      | none => .error Error.Other := by
  induction devices with
  | nil => rfl
  | cons d rest ih =>
    unfold open_device
    cases hd : d.device_descriptor with
    | error e =>
      have hm : deviceMatches d vid pid = false := by
        unfold deviceMatches
        rw [hd]
      simp only [List.find?_cons, hm]
      exact ih
    | ok desc =>
      by_cases hvp : desc.vendor_id = vid ∧ desc.product_id = pid
      · have hm : deviceMatches d vid pid = true := by
          unfold deviceMatches
          rw [hd]
          simp [hvp.1, hvp.2]
        simp only [List.find?_cons, hm, if_pos hvp, hd]
        cases d.open_result <;> rfl
      · have hm : deviceMatches d vid pid = false := by
          unfold deviceMatches
          rw [hd]
          simp only [decide_eq_false_iff_not]
          exact hvp
        simp only [List.find?_cons, hm, if_neg hvp]
        exact ih

/-- C6: `open_device` opens and returns the first device in enumeration
order whose (readable) descriptor matches both identifiers, skipping devices
with unreadable descriptors and ignoring later matches; it fails with
`Error::Other` when no device matches, and an open failure of the first match
makes the call fail (propagating that open error). -/
theorem open_device_locates_first_match (devices : List UsbDevice) (vid pid : Nat) :
    (devices.find? (fun d => deviceMatches d vid pid) = none →
      open_device devices vid pid = .error Error.Other) ∧
    (∀ d desc, devices.find? (fun d => deviceMatches d vid pid) = some d →
      d.device_descriptor = .ok desc →
      open_device devices vid pid =
        (match d.open_result with
          | .ok handle => .ok (d, desc, handle)
          | .error e => .error e)) := by
  constructor
  · intro h
    simp only [open_device_first_match, h]
  · intro d desc hf hd
    simp only [open_device_first_match, hf, hd]
    cases d.open_result <;> rfl

/-- C6 witness: among an unreadable device, a non-matching device and two
matching devices, the first matching one (the third) is opened and returned;
the fourth (also matching, but failing to open) is never reached. -/
theorem open_device_locates_first_match_witness :
    open_device
      [⟨.error Error.Access, .error Error.Busy, []⟩,
        ⟨.ok ⟨9, 9⟩, .error Error.Busy, []⟩,
        ⟨.ok ⟨4617, 23074⟩, .ok ⟨fun _ => .ok false, fun _ => .ok (), fun _ => .ok ()⟩, []⟩,
        ⟨.ok ⟨4617, 23074⟩, .error Error.Busy, []⟩] 4617 23074 =
      .ok (⟨.ok ⟨4617, 23074⟩, .ok ⟨fun _ => .ok false, fun _ => .ok (), fun _ => .ok ()⟩, []⟩,
        ⟨4617, 23074⟩, ⟨fun _ => .ok false, fun _ => .ok (), fun _ => .ok ()⟩) :=
  (open_device_locates_first_match
    [⟨.error Error.Access, .error Error.Busy, []⟩,
      ⟨.ok ⟨9, 9⟩, .error Error.Busy, []⟩,
      ⟨.ok ⟨4617, 23074⟩, .ok ⟨fun _ => .ok false, fun _ => .ok (), fun _ => .ok ()⟩, []⟩,
      ⟨.ok ⟨4617, 23074⟩, .error Error.Busy, []⟩] 4617 23074).2
    ⟨.ok ⟨4617, 23074⟩, .ok ⟨fun _ => .ok false, fun _ => .ok (), fun _ => .ok ()⟩, []⟩
    ⟨4617, 23074⟩ rfl rfl

/-- C9: construction tries an interrupt endpoint pair first and, when one is
found, returns it directly for every possible kernel-driver behaviour (no
endpoint configuration happens); only when no interrupt pair exists does it
try a bulk pair, in which case the outcome is decided solely by configuring
the output endpoint of that pair (a failure maps to `Error::Other`); when
neither transfer kind yields a pair, construction fails with `Error::Other`. -/
theorem new_from_vid_pid_transport_fallback (devices : List UsbDevice) (vid pid : Nat)
    (device : UsbDevice) (desc : DeviceDesc) (handle : KernelOps)
    (hopen : open_device devices vid pid = .ok (device, desc, handle)) :
    (∀ ends, get_end_points device.configs TransferType.Interrupt = some ends →
      new_from_vid_pid devices vid pid = .ok ⟨device, desc, handle, ends.1, ends.2⟩) ∧
    (∀ ends, get_end_points device.configs TransferType.Interrupt = none →
      get_end_points device.configs TransferType.Bulk = some ends →
      new_from_vid_pid devices vid pid =
        (match configure_endpoint handle ends.2 with
          | .ok _ => .ok ⟨device, desc, handle, ends.1, ends.2⟩
          | .error _ => .error Error.Other)) ∧
    (get_end_points device.configs TransferType.Interrupt = none →
      get_end_points device.configs TransferType.Bulk = none →
      new_from_vid_pid devices vid pid = .error Error.Other) := by
  refine ⟨?_, ?_, ?_⟩
  · intro ends hi
    simp only [new_from_vid_pid, hopen, hi]
  · intro ends hi hb
    simp only [new_from_vid_pid, hopen, hi, hb]
    cases configure_endpoint handle ends.2 <;> rfl
  · intro hi hb
    simp only [new_from_vid_pid, hopen, hi, hb]

/-- C9 witness: a device with only a bulk endpoint pair falls back to bulk;
configuration succeeds (no kernel driver active) and the pair is returned. -/
theorem new_from_vid_pid_transport_fallback_witness :
    new_from_vid_pid
      [⟨.ok ⟨1, 2⟩, .ok ⟨fun _ => .ok false, fun _ => .ok (), fun _ => .ok ()⟩,
        [some ⟨1, [⟨[⟨0, 0, [⟨TransferType.Bulk, Direction.In, 81⟩,
          ⟨TransferType.Bulk, Direction.Out, 2⟩]⟩]⟩]⟩]⟩] 1 2 =
      .ok ⟨⟨.ok ⟨1, 2⟩, .ok ⟨fun _ => .ok false, fun _ => .ok (), fun _ => .ok ()⟩,
        [some ⟨1, [⟨[⟨0, 0, [⟨TransferType.Bulk, Direction.In, 81⟩,
          ⟨TransferType.Bulk, Direction.Out, 2⟩]⟩]⟩]⟩]⟩,
        ⟨1, 2⟩, ⟨fun _ => .ok false, fun _ => .ok (), fun _ => .ok ()⟩,
        ⟨1, 0, 0, 81⟩, ⟨1, 0, 0, 2⟩⟩ :=
  (new_from_vid_pid_transport_fallback
    [⟨.ok ⟨1, 2⟩, .ok ⟨fun _ => .ok false, fun _ => .ok (), fun _ => .ok ()⟩,
      [some ⟨1, [⟨[⟨0, 0, [⟨TransferType.Bulk, Direction.In, 81⟩,
        ⟨TransferType.Bulk, Direction.Out, 2⟩]⟩]⟩]⟩]⟩] 1 2
    ⟨.ok ⟨1, 2⟩, .ok ⟨fun _ => .ok false, fun _ => .ok (), fun _ => .ok ()⟩,
      [some ⟨1, [⟨[⟨0, 0, [⟨TransferType.Bulk, Direction.In, 81⟩,
        ⟨TransferType.Bulk, Direction.Out, 2⟩]⟩]⟩]⟩]⟩
    ⟨1, 2⟩ ⟨fun _ => .ok false, fun _ => .ok (), fun _ => .ok ()⟩ rfl).2.1
    (⟨1, 0, 0, 81⟩, ⟨1, 0, 0, 2⟩) rfl rfl

/-! ## Transfer engine -/

/-- C8: the drain loop of `clear_read` reads and discards buffered chunks,
stopping at the first read that reports zero bytes (a zero-length read or a
failed read); for N non-empty stale chunks followed by such a terminating
read it performs exactly N + 1 reads and leaves the rest of the stream
untouched. -/
theorem clear_read_drains_stale_chunks (chunks : List ReadResult) (z : ReadResult)
    (rest : List ReadResult) (hc : ∀ r ∈ chunks, 0 < drainLen r) (hz : drainLen z = 0) :
    clear_read_go (chunks ++ z :: rest) = some (chunks.length + 1, rest) := by
  induction chunks with
  | nil => simp [clear_read_go, hz]
  | cons c cs ih =>
    have hc0 : 0 < drainLen c := hc c (List.mem_cons_self c cs)
    have ih2 := ih (fun r hr => hc r (List.mem_cons_of_mem c hr))
    simp [clear_read_go, Nat.pos_iff_ne_zero.mp hc0, ih2]

/-- C8 witness: two non-empty stale chunks followed by a zero-length read are
drained in exactly three reads, leaving the following failed read unread. -/
theorem clear_read_drains_stale_chunks_witness :
    clear_read_go [ReadResult.ok [5], ReadResult.ok [6, 7], ReadResult.ok [],
      ReadResult.err Error.Timeout] = some (3, [ReadResult.err Error.Timeout]) :=
  clear_read_drains_stale_chunks [ReadResult.ok [5], ReadResult.ok [6, 7]] (ReadResult.ok [])
    [ReadResult.err Error.Timeout] (by decide) (by decide)

/-- C1: contrary to the retry design, the read loop of `get_memory` returns
`Err(Error::Other)` at the first failed transport read: with a transport
whose reads all fail (one read consumed by the drain, the rest available to
the loop) the call fails after exactly one loop read, so the
`fail_counts == 1000` threshold is never reached. -/
theorem get_memory_aborts_on_first_read_failure :
    get_memory [ReadResult.err Error.Timeout, ReadResult.err Error.Timeout]
      (Except.ok 512) 0 4 1000 = some (Except.error Error.Other, 1) := rfl

/-- C2 counterexample: a transport whose single successful read returns
exactly the requested 10 bytes makes `get_memory` return a 512-byte payload
(the read bytes followed by the stale remainder of the receive buffer), not a
10-byte one: the loop appends the whole 512-byte buffer, not the reported
length. -/
theorem get_memory_payload_not_reported_length :
    get_memory [ReadResult.ok [], ReadResult.ok (List.replicate 10 7)] (Except.ok 512) 0 10 4
      = some (Except.ok (List.replicate 10 7 ++ List.replicate 502 0), 1) ∧
    (List.replicate 10 7 ++ List.replicate 502 0).length = 512 ∧ (512 : Nat) ≠ 10 :=
  ⟨rfl, by simp, by decide⟩

theorem sum_lengths_pos (cs : List (List Nat)) (hne : cs ≠ [])
    (hall : ∀ c ∈ cs, 0 < c.length) : 0 < (cs.map List.length).sum := by
  cases cs with
  | nil => exact absurd rfl hne
  | cons c cs2 =>
    have := hall c (List.mem_cons_self c cs2)
    simp [List.sum_cons]
    omega

theorem read_loop_ok_chunks (chunks : List (List Nat)) :
    ∀ (st : LoopState) (fuel : Nat) (rs : List ReadResult),
      (∀ c ∈ chunks, 0 < c.length ∧ c.length ≤ 512) →
      st.output.length = 512 →
      st.fail_counts = 0 →
      st.size_count = ((chunks.map List.length).sum : Int) →
      0 < st.size_count →
      chunks.length ≤ fuel →
      read_loop fuel (chunks.map ReadResult.ok ++ rs) st =
        some (.ok (st.result ++ blocks st.output chunks), st.reads_done + chunks.length) := by
  induction chunks with
  | nil =>
    intro st fuel rs _ _ _ hsz hpos _
    rw [hsz] at hpos
    simp at hpos
  | cons c cs ih =>
    intro st fuel rs hlen hout hfail hsz hpos hfuel
    cases fuel with
    | zero => simp at hfuel
    | succ f =>
      have hc := hlen c (List.mem_cons_self c cs)
      have htake : c.take st.output.length = c := by
        rw [hout]
        exact List.take_of_length_le hc.2
      simp only [List.map_cons, List.cons_append, read_loop, htake, hfail]
      rw [if_neg (by omega)]
      have houtlen : (c ++ st.output.drop c.length).length = 512 := by
        simp [List.length_drop]
        omega
      by_cases hcs : cs = []
      · subst hcs
        have hsz1 : st.size_count = (c.length : Int) := by
          rw [hsz]
          simp
        rw [if_pos (by rw [hsz1]; simp)]
        simp only [blocks, htake, List.length_nil, List.append_nil]
        rfl
      · have hpos2 : (0 : Int) < ((cs.map List.length).sum : Int) := by
          exact_mod_cast sum_lengths_pos cs hcs (fun x hx => (hlen x (List.mem_cons_of_mem c hx)).1)
        have hszsum : st.size_count - (c.length : Int) = ((cs.map List.length).sum : Int) := by
          rw [hsz]
          simp [List.sum_cons]
        rw [if_neg (by rw [hszsum]; omega)]
        have ih2 := ih ⟨c ++ st.output.drop c.length, st.size_count - (c.length : Int),
            0, st.result ++ (c ++ st.output.drop c.length), st.reads_done + 1⟩
          f rs (fun x hx => hlen x (List.mem_cons_of_mem c hx)) houtlen rfl
          (by simp only []; rw [hszsum]) (by simp only []; rw [hszsum]; omega)
          (by simp at hfuel; omega)
        rw [List.append_eq, ih2]
        simp only [blocks, htake]
        rw [List.append_assoc]
        congr 2
        simp [List.length_cons]
        omega

theorem blocks_length (chunks : List (List Nat)) :
    ∀ (buf : List Nat), buf.length = 512 → (∀ c ∈ chunks, c.length ≤ 512) →
      (blocks buf chunks).length = 512 * chunks.length := by
  induction chunks with
  | nil =>
    intro buf _ _
    simp [blocks]
  | cons c cs ih =>
    intro buf hbuf hall
    have hc := hall c (List.mem_cons_self c cs)
    have htake : c.take buf.length = c := by
      rw [hbuf]
      exact List.take_of_length_le hc
    have hbuf2 : (c ++ buf.drop c.length).length = 512 := by
      simp [List.length_drop]
      omega
    simp only [blocks, htake]
    rw [List.length_append, hbuf2, ih _ hbuf2 (fun x hx => hall x (List.mem_cons_of_mem c hx))]
    simp [List.length_cons]
    ring

theorem blocks_chunk_prefix (chunks : List (List Nat)) :
    ∀ (buf : List Nat) (i : Nat) (hi : i < chunks.length), buf.length = 512 →
      (∀ c ∈ chunks, c.length ≤ 512) →
      ((blocks buf chunks).drop (512 * i)).take chunks[i].length = chunks[i] := by
  induction chunks with
  | nil =>
    intro buf i hi
    simp at hi
  | cons c cs ih =>
    intro buf i hi hbuf hall
    have hc := hall c (List.mem_cons_self c cs)
    have htake : c.take buf.length = c := by
      rw [hbuf]
      exact List.take_of_length_le hc
    have hbuf2 : (c ++ buf.drop c.length).length = 512 := by
      simp [List.length_drop]
      omega
    cases i with
    | zero =>
      simp only [blocks, htake, Nat.mul_zero, List.drop_zero, List.getElem_cons_zero,
        List.append_assoc]
      exact List.take_left' rfl
    | succ j =>
      simp only [blocks, htake, List.getElem_cons_succ]
      rw [Nat.mul_succ, Nat.add_comm (512 * j) 512, ← List.drop_drop, List.drop_left' hbuf2]
      exact ih _ j (by simpa using hi) hbuf2 (fun x hx => hall x (List.mem_cons_of_mem c hx))

/-- C2 amended: each successful read appends the entire 512-byte receive
buffer to the payload — the read's bytes first, then the stale remainder of
the buffer — while the remaining-byte counter decreases by the reported
length only; hence for a transport whose non-empty successful reads sum to
exactly the requested (positive, `i32`-representable) size, `get_memory`
succeeds with a payload of 512 bytes per read (512 × number of chunks, not
the requested size), whose consecutive 512-byte blocks begin with the chunks
in arrival order. -/
theorem get_memory_appends_full_buffers (chunks : List (List Nat)) (offset size fuel : Nat)
    (hchunks : ∀ c ∈ chunks, 0 < c.length ∧ c.length ≤ 512)
    (hsum : (chunks.map List.length).sum = size)
    (hpos : 0 < size) (hsize : size < 2 ^ 31) (hfuel : chunks.length ≤ fuel) :
    get_memory (ReadResult.ok [] :: chunks.map ReadResult.ok) (.ok 512) offset size fuel =
      some (.ok (blocks (List.replicate 512 0) chunks), chunks.length) ∧
    (blocks (List.replicate 512 0) chunks).length = 512 * chunks.length ∧
    ∀ i, (hi : i < chunks.length) →
      ((blocks (List.replicate 512 0) chunks).drop (512 * i)).take chunks[i].length
        = chunks[i] := by
  have hint : toInt32 size = (size : Int) := by
    rw [toInt32, if_pos hsize]
  refine ⟨?_, ?_, ?_⟩
  · have hdrain : clear_read_go (ReadResult.ok [] :: chunks.map ReadResult.ok) =
        some (1, chunks.map ReadResult.ok) := rfl
    simp only [get_memory, hdrain]
    have hloop := read_loop_ok_chunks chunks ⟨List.replicate 512 0, toInt32 size, 0, [], 0⟩
      fuel [] hchunks (by simp) rfl (by simp only []; rw [hint, hsum])
      (by simp only []; rw [hint]; exact_mod_cast hpos) hfuel
    rw [List.append_nil] at hloop
    rw [hloop]
    simp
  · exact blocks_length chunks (List.replicate 512 0) (by simp)
      (fun c hc => (hchunks c hc).2)
  · intro i hi
    exact blocks_chunk_prefix chunks (List.replicate 512 0) i hi (by simp)
      (fun c hc => (hchunks c hc).2)

/-- C2 amended witness: one successful 3-byte read for a 3-byte request
yields the 512-byte buffer as payload. -/
theorem get_memory_appends_full_buffers_witness :
    get_memory (ReadResult.ok [] :: [[1, 2, 3]].map ReadResult.ok) (.ok 512) 0 3 1 =
      some (.ok (blocks (List.replicate 512 0) [[1, 2, 3]]), 1) :=
  (get_memory_appends_full_buffers [[1, 2, 3]] 0 3 1 (by decide) (by decide) (by decide)
    (by decide) (by decide)).1

/-- C7 counterexample: the five failure kinds are not distinguishable in the
returned value: a device-not-found failure, a no-transport failure, an
endpoint-configuration failure, a write failure and a read failure all
surface as the very same value `Error::Other`. -/
theorem error_kinds_not_distinguishable :
    new_from_vid_pid [] 1 1 = .error Error.Other ∧
    new_from_vid_pid
      [⟨.ok ⟨1, 1⟩, .ok ⟨fun _ => .ok false, fun _ => .ok (), fun _ => .ok ()⟩, []⟩] 1 1 =
      .error Error.Other ∧
    new_from_vid_pid
      [⟨.ok ⟨1, 1⟩, .ok ⟨fun _ => .ok true, fun _ => .error Error.Access, fun _ => .ok ()⟩,
        [some ⟨1, [⟨[⟨0, 0, [⟨TransferType.Bulk, Direction.In, 81⟩,
          ⟨TransferType.Bulk, Direction.Out, 2⟩]⟩]⟩]⟩]⟩] 1 1 = .error Error.Other ∧
    get_memory [ReadResult.ok []] (Except.error Error.Pipe) 0 0 1 =
      some (.error Error.Other, 0) ∧
    get_memory [ReadResult.ok [], ReadResult.err Error.Timeout] (Except.ok 512) 0 1 2 =
      some (.error Error.Other, 1) :=
  ⟨rfl, rfl, rfl, rfl, rfl⟩

/-- C7 amended: every failure surfaces to the caller as an error result, but
the kinds collapse: a failed device search, a failed transport resolution, a
failed endpoint configuration, a failed command write and a failed loop read
all surface as the same value `Error::Other`, so the caller cannot tell the
kinds apart (only an open failure propagates its own error instead). -/
theorem failure_kinds_all_surface_as_Other :
    (∀ devices vid pid, devices.find? (fun d => deviceMatches d vid pid) = none →
      new_from_vid_pid devices vid pid = .error Error.Other) ∧
    (∀ devices vid pid device desc handle,
      open_device devices vid pid = .ok (device, desc, handle) →
      get_end_points device.configs TransferType.Interrupt = none →
      get_end_points device.configs TransferType.Bulk = none →
      new_from_vid_pid devices vid pid = .error Error.Other) ∧
    (∀ devices vid pid device desc handle ends e,
      open_device devices vid pid = .ok (device, desc, handle) →
      get_end_points device.configs TransferType.Interrupt = none →
      get_end_points device.configs TransferType.Bulk = some ends →
      configure_endpoint handle ends.2 = .error e →
      new_from_vid_pid devices vid pid = .error Error.Other) ∧
    (∀ reads n rest e offset size fuel, clear_read_go reads = some (n, rest) →
      get_memory reads (Except.error e) offset size fuel = some (.error Error.Other, 0)) ∧
    (∀ fuel rs st e,
      read_loop (fuel + 1) (ReadResult.err e :: rs) st =
        some (.error Error.Other, st.reads_done + 1)) := by
  refine ⟨?_, ?_, ?_, ?_, ?_⟩
  · intro devices vid pid h
    simp only [new_from_vid_pid, open_device_first_match, h]
  · intro devices vid pid device desc handle hopen hi hb
    simp only [new_from_vid_pid, hopen, hi, hb]
  · intro devices vid pid device desc handle ends e hopen hi hb hcfg
    simp only [new_from_vid_pid, hopen, hi, hb, hcfg]
  · intro reads n rest e offset size fuel h
    simp only [get_memory, h]
  · intro fuel rs st e
    rfl

/-- C7 amended witness: an empty device list makes construction fail with the
shared error value. -/
theorem failure_kinds_all_surface_as_Other_witness :
    new_from_vid_pid [] 5 6 = .error Error.Other :=
  failure_kinds_all_surface_as_Other.1 [] 5 6 rfl

theorem read_loop_ok_length (fuel : Nat) :
    ∀ (rs : List ReadResult) (st : LoopState) (p : List Nat) (k : Nat),
      st.output.length = 512 →
      st.result.length = 512 * st.reads_done →
      read_loop fuel rs st = some (.ok p, k) →
      p.length = 512 * k ∧ st.reads_done < k := by
  induction fuel with
  | zero =>
    intro rs st p k _ _ h
    exact absurd h (by simp [read_loop])
  | succ f ih =>
    intro rs st p k hout hres h
    cases rs with
    | nil => exact absurd h (by simp [read_loop])
    | cons r rest =>
      cases r with
      | err e =>
        simp only [read_loop] at h
        exact absurd h (by simp)
      | ok data =>
        simp only [read_loop] at h
        split_ifs at h with h1 h2
        · exact absurd h (by simp)
        · obtain ⟨hp, hk⟩ : (Except.ok (st.result ++ (data.take st.output.length ++
              st.output.drop (data.take st.output.length).length)) :
                Except Error (List Nat)) = .ok p ∧ st.reads_done + 1 = k := by
            constructor
            · exact congrArg Prod.fst (Option.some.inj h)
            · exact congrArg Prod.snd (Option.some.inj h)
          have hp2 := hp
          rw [Except.ok.injEq] at hp2
          subst hp2
          refine ⟨?_, by omega⟩
          have hlen : (data.take st.output.length ++
              st.output.drop (data.take st.output.length).length).length = 512 := by
            simp [List.length_take, List.length_drop]
            omega
          rw [List.length_append, hres, hlen, ← hk]
          ring
        · have h2 := ih rest
            ⟨data.take st.output.length ++
                st.output.drop (data.take st.output.length).length,
              st.size_count - ↑(data.take st.output.length).length, st.fail_counts,
              st.result ++ (data.take st.output.length ++
                st.output.drop (data.take st.output.length).length),
              st.reads_done + 1⟩ p k ?_ ?_ h
          · exact ⟨h2.1, by have := h2.2; simp at this; omega⟩
          · simp [List.length_take, List.length_drop]
            omega
          · simp only []
            have hlen : (data.take st.output.length ++
                st.output.drop (data.take st.output.length).length).length = 512 := by
              simp [List.length_take, List.length_drop]
              omega
            rw [List.length_append, hres, hlen]
            ring

/-- C10: whenever `get_memory` succeeds, the payload length is exactly 512
times the number of loop reads performed, hence a positive multiple of 512
and at least 512 — even for a requested size of 0 the loop performs a read
before checking the remaining-byte counter. -/
theorem get_memory_ok_payload_512k (reads : List ReadResult) (write_result : Except Error Nat)
    (offset size fuel : Nat) (p : List Nat) (k : Nat)
    (h : get_memory reads write_result offset size fuel = some (.ok p, k)) :
    p.length = 512 * k ∧ 0 < k ∧ 512 ≤ p.length := by
  simp only [get_memory] at h
  cases hd : clear_read_go reads with
  | none =>
    rw [hd] at h
    exact absurd h (by simp)
  | some pr =>
    rw [hd] at h
    rcases pr with ⟨n, rest⟩
    cases write_result with
    | error e =>
      simp only [] at h
      exact absurd h (by simp)
    | ok w =>
      simp only [] at h
      have hinv := read_loop_ok_length fuel rest
        ⟨List.replicate 512 0, toInt32 size, 0, [], 0⟩ p k (by simp) (by simp) h
      refine ⟨hinv.1, ?_, ?_⟩
      · have := hinv.2
        simp at this
        omega
      · have h1 := hinv.1
        have h2 := hinv.2
        simp at h2
        omega

/-- C10 witness: a size-0 request answered by one 10-byte read still yields a
512-byte payload (one read, 512 × 1 bytes). -/
theorem get_memory_ok_payload_512k_witness :
    (List.replicate 10 7 ++ List.replicate 502 0).length = 512 * 1 ∧ 0 < 1 ∧
      512 ≤ (List.replicate 10 7 ++ List.replicate 502 0).length :=
  get_memory_ok_payload_512k [ReadResult.ok [], ReadResult.ok (List.replicate 10 7)]
    (Except.ok 512) 0 0 4 (List.replicate 10 7 ++ List.replicate 502 0) 1 rfl
